import Mathlib

/-!
Verification of the goQuant upgrade-governance backend
(`src/backend/src`: `proposal.rs`, `multisig.rs`, `timelock.rs`,
`security.rs`, `rollback.rs`, `migration.rs`, `error.rs`, `main.rs`).

The Rust code is embedded shallowly: every stateful method becomes a pure
function that takes the relevant state and returns the updated state
together with its `Result`.  Wall-clock reads (`SystemTime::now`,
`Utc::now`) are injected as an explicit `now : Int` argument; UUIDv4
generation is modelled as a fresh-name supply (`genId` applied to a
counter carried in the state), whose contract is global uniqueness;
external RPC calls (the Squads client) are injected as an explicit
outcome argument.
-/

namespace GoQuant

/-- Error enum from `src/backend/src/error.rs` (`UpgradeError`).  The
`DatabaseError(sqlx::Error)` variant carries a foreign error type and is
represented by its message; it is never produced by the embedded code. -/
inductive UpgradeError where
  | InvalidPubkey
  | ProposalNotFound (id : String)
  | TimelockActive (remaining_seconds : Int)
  | InsufficientApprovals (current : Nat) (required : Nat)
  | NotMultisigMember
  | AlreadyExecuted
  | AlreadyCancelled
  | DatabaseError (msg : String)
  | SolanaError (msg : String)
  | MultisigError (msg : String)
  | MigrationError (msg : String)
  | InternalError (msg : String)
  deriving DecidableEq, Repr

/-- Proposal lifecycle status from `src/backend/src/proposal.rs`. -/
inductive ProposalStatus where
  | Proposed
  | Approved
  | TimelockActive
  | Executed
  | Cancelled
  deriving DecidableEq, Repr

/-- Proposal record from `src/backend/src/proposal.rs` (struct `Proposal`).
`approval_threshold` is a `u8` in the source, embedded as `Nat`. -/
structure Proposal where
  id : String
  proposer : String
  program : String
  new_buffer : String
  description : String
  proposed_at : Int
  timelock_until : Int
  approvals : List String
  approval_threshold : Nat
  status : ProposalStatus
  executed_at : Option Int
  deriving DecidableEq, Repr

/-- Multisig proposal status from `src/backend/src/multisig.rs`. -/
inductive MultisigStatus where
  | Pending
  | Approved
  | Executed
  | Rejected
  deriving DecidableEq, Repr

/-- Multisig proposal record from `src/backend/src/multisig.rs`
(struct `MultisigProposal`); instruction bytes are `Nat`s below 256. -/
structure MultisigProposal where
  id : String
  instruction : List Nat
  description : String
  timelock : Int
  approvals : List String
  threshold : Nat
  status : MultisigStatus
  deriving DecidableEq, Repr

/-- State of `MultisigCoordinator` from `src/backend/src/multisig.rs`.
`hasSquads` is true when both the optional `squads_client` and
`multisig_vault` are configured (they are set together in `new`). -/
structure MultisigCoordinator where
  proposals : List MultisigProposal
  members : List String
  threshold : Nat
  hasSquads : Bool
  deriving DecidableEq, Repr

/-- Parameters passed to `propose_transaction`
(struct `ProposalParams` in `src/backend/src/proposal.rs`). -/
structure ProposalParams where
  instruction : List Nat
  description : String
  timelock : Int
  deriving DecidableEq, Repr

/-- Fresh-id supply modelling `uuid::Uuid::new_v4()`: the `n`-th generated
id.  Distinct draws give distinct ids, matching the UUID contract; the
specific shape (a run of `n` copies of one character) only serves to make
uniqueness provable. -/
def genId (n : Nat) : String :=
  String.mk (List.replicate n 'a')

/-- Replace the first element whose key matches `pid` (the effect of
`iter_mut().find(...)` followed by in-place mutation in the Rust code). -/
def updateFirst {α : Type} (key : α → String) (pid : String) (f : α → α) :
    List α → List α
  | [] => []
  | p :: rest =>
    if key p == pid then f p :: rest else p :: updateFirst key pid f rest

/-- Constructor of `MultisigCoordinator::new` from
`src/backend/src/multisig.rs`; the member list and threshold are the
hard-coded values of the source. -/
def MultisigCoordinator.new (hasSquads : Bool) : MultisigCoordinator :=
  { proposals := []
    members := ["member1", "member2", "member3", "member4", "member5"]
    threshold := 3
    hasSquads := hasSquads }

/-- Embedding of `MultisigCoordinator::propose_transaction`; `freshId` is
the UUID drawn inside the method. -/
def MultisigCoordinator.propose_transaction (c : MultisigCoordinator)
    (freshId : String) (params : ProposalParams) :
    MultisigCoordinator × String :=
  let proposal : MultisigProposal :=
    { id := freshId
      instruction := params.instruction
      description := params.description
      timelock := params.timelock
      approvals := []
      threshold := c.threshold
      status := MultisigStatus.Pending }
  ({ c with proposals := c.proposals ++ [proposal] }, freshId)

/-- Mutation applied to the found multisig proposal by
`MultisigCoordinator::approve_proposal`: push the approver, then set the
status to `Approved` when the threshold is met. -/
def approveUpdate (approver : String) (p : MultisigProposal) :
    MultisigProposal :=
  if p.threshold ≤ (p.approvals ++ [approver]).length then
    { p with approvals := p.approvals ++ [approver]
             status := MultisigStatus.Approved }
  else { p with approvals := p.approvals ++ [approver] }

/-- Embedding of `MultisigCoordinator::approve_proposal`.  The approver
identity is the hard-coded `"member1"` of the source (the signer context
is not implemented there).  A duplicate approval fails with
`InternalError("Already approved")`, the source's rendering of the
`AlreadyApproved` failure. -/
def MultisigCoordinator.approve_proposal (c : MultisigCoordinator)
    (proposal_id : String) : MultisigCoordinator × Except UpgradeError Unit :=
  match c.proposals.find? (fun p => p.id == proposal_id) with
  | none => (c, Except.error (UpgradeError.ProposalNotFound proposal_id))
  | some proposal =>
    let approver := "member1"
    if approver ∈ proposal.approvals then
      (c, Except.error (UpgradeError.InternalError "Already approved"))
    else
      ({ c with proposals := (updateFirst (fun p => p.id) proposal_id
          (approveUpdate approver) c.proposals) },
        Except.ok ())

/-- Embedding of `MultisigCoordinator::execute_transaction`.
`squadsOutcome` injects the result of the external Squads RPC block
(instruction building plus transaction submission); it is consulted only
when a Squads client is configured, exactly as in the source. -/
def MultisigCoordinator.execute_transaction (c : MultisigCoordinator)
    (proposal_id : String) (squadsOutcome : Except UpgradeError String) :
    MultisigCoordinator × Except UpgradeError Unit :=
  match c.proposals.find? (fun p => p.id == proposal_id) with
  | none => (c, Except.error (UpgradeError.ProposalNotFound proposal_id))
  | some proposal =>
    if proposal.status ≠ MultisigStatus.Approved then
      (c, Except.error (UpgradeError.InternalError "Proposal not approved"))
    else
      match (if c.hasSquads then squadsOutcome else Except.ok "") with
      | Except.error e => (c, Except.error e)
      | Except.ok _ =>
        ({ c with proposals := (updateFirst (fun p => p.id) proposal_id
            (fun p => { p with status := MultisigStatus.Executed })
            c.proposals) },
          Except.ok ())

/-- Lookup in the `HashMap<String, i64>` of
`src/backend/src/timelock.rs`, represented as an association list with
first-key-wins lookup. -/
def lookupTimelock (timelocks : List (String × Int)) (proposal_id : String) :
    Option Int :=
  (timelocks.find? (fun kv => kv.1 == proposal_id)).map (fun kv => kv.2)

/-- Embedding of `TimelockManager::get_timelock_end`: a missing entry
fails with `ProposalNotFound`. -/
def get_timelock_end (timelocks : List (String × Int))
    (proposal_id : String) : Except UpgradeError Int :=
  match lookupTimelock timelocks proposal_id with
  | some timelock_end => Except.ok timelock_end
  | none => Except.error (UpgradeError.ProposalNotFound proposal_id)

/-- Embedding of `TimelockManager::set_timelock` (insert-or-overwrite).
No request handler in `src/backend/src/main.rs` ever calls it; it is kept
here to model the full `TimelockManager` interface. -/
def set_timelock (timelocks : List (String × Int)) (proposal_id : String)
    (duration_seconds : Int) (now : Int) : List (String × Int) :=
  (proposal_id, now + duration_seconds) ::
    timelocks.filter (fun kv => !(kv.1 == proposal_id))

/-- Combined service state: the `ProposalManager` of
`src/backend/src/proposal.rs` together with the shared
`MultisigCoordinator` and `TimelockManager` it holds `Arc` references to,
plus the fresh-id counter modelling UUID generation. -/
structure SystemState where
  multisig : MultisigCoordinator
  timelocks : List (String × Int)
  proposals : List Proposal
  nextId : Nat
  deriving DecidableEq, Repr

/-- Initial service state as wired in `main`: empty stores and a fresh
coordinator. -/
def initState (hasSquads : Bool) : SystemState :=
  { multisig := MultisigCoordinator.new hasSquads
    timelocks := []
    proposals := []
    nextId := 0 }

/-- Embedding of `ProposalManager::build_upgrade_instruction`, which
returns `Ok(vec![])` in the source. -/
def build_upgrade_instruction (_new_program_buffer : String) :
    Except UpgradeError (List Nat) :=
  Except.ok []

/-- Embedding of `ProposalManager::propose_upgrade`.  The two UUIDs drawn
in the call (the proposal id and, inside `propose_transaction`, the
multisig record id) come from the fresh-id counter.  Note that the
timelock map is not touched and the hard-coded timelock duration is
48 hours; `notify_community` always returns `Ok` in the source. -/
def propose_upgrade (s : SystemState) (now : Int)
    (new_program_buffer : String) (description : String) :
    SystemState × Except UpgradeError String :=
  let proposal_id := genId s.nextId
  let timelock_duration : Int := 48 * 60 * 60
  let timelock_until := now + timelock_duration
  match build_upgrade_instruction new_program_buffer with
  | Except.error e => (s, Except.error e)
  | Except.ok instruction =>
    let multisig1 := (s.multisig.propose_transaction (genId (s.nextId + 1))
      { instruction := instruction
        description := description
        timelock := timelock_duration }).1
    let proposal : Proposal :=
      { id := proposal_id
        proposer := "multisig"
        program := "program_id"
        new_buffer := new_program_buffer
        description := description
        proposed_at := now
        timelock_until := timelock_until
        approvals := []
        approval_threshold := 3
        status := ProposalStatus.Proposed
        executed_at := none }
    ({ s with multisig := multisig1
              proposals := s.proposals ++ [proposal]
              nextId := s.nextId + 2 },
      Except.ok proposal_id)

/-- Embedding of `ProposalManager::wait_for_timelock`: consults the
`TimelockManager` map (not the proposal record) and fails with the
remaining seconds while the lock is active. -/
def wait_for_timelock (s : SystemState) (proposal_id : String) (now : Int) :
    Except UpgradeError Unit :=
  match get_timelock_end s.timelocks proposal_id with
  | Except.error e => Except.error e
  | Except.ok timelock_end =>
    if now < timelock_end then
      Except.error (UpgradeError.TimelockActive (timelock_end - now))
    else Except.ok ()

/-- Embedding of `ProposalManager::execute_upgrade`.  `verify_upgrade`
and `announce_upgrade` always return `Ok` in the source and are elided;
the two wall-clock reads inside one call are modelled by the single
argument `now`. -/
def execute_upgrade (s : SystemState) (proposal_id : String) (now : Int)
    (squadsOutcome : Except UpgradeError String) :
    SystemState × Except UpgradeError Unit :=
  match s.proposals.find? (fun p => p.id == proposal_id) with
  | none => (s, Except.error (UpgradeError.ProposalNotFound proposal_id))
  | some proposal =>
    if proposal.status = ProposalStatus.Executed then
      (s, Except.error UpgradeError.AlreadyExecuted)
    else if proposal.status = ProposalStatus.Cancelled then
      (s, Except.error UpgradeError.AlreadyCancelled)
    else
      match wait_for_timelock s proposal_id now with
      | Except.error e => (s, Except.error e)
      | Except.ok _ =>
        if proposal.approvals.length < proposal.approval_threshold then
          (s, Except.error (UpgradeError.InsufficientApprovals
            proposal.approvals.length proposal.approval_threshold))
        else
          match (s.multisig.execute_transaction proposal_id
              squadsOutcome).2 with
          | Except.error e =>
            ({ s with multisig := (s.multisig.execute_transaction proposal_id
                squadsOutcome).1 },
              Except.error e)
          | Except.ok _ =>
            ({ s with
                multisig := (s.multisig.execute_transaction proposal_id
                  squadsOutcome).1
                proposals := (updateFirst (fun p => p.id) proposal_id
                  (fun p => { p with status := ProposalStatus.Executed
                                     executed_at := some now })
                  s.proposals) },
              Except.ok ())

/-- Embedding of `ProposalManager::cancel_upgrade`. -/
def cancel_upgrade (s : SystemState) (proposal_id : String) :
    SystemState × Except UpgradeError Unit :=
  match s.proposals.find? (fun p => p.id == proposal_id) with
  | none => (s, Except.error (UpgradeError.ProposalNotFound proposal_id))
  | some proposal =>
    if proposal.status = ProposalStatus.Executed then
      (s, Except.error UpgradeError.AlreadyExecuted)
    else
      ({ s with proposals := (updateFirst (fun p => p.id) proposal_id
          (fun p => { p with status := ProposalStatus.Cancelled })
          s.proposals) },
        Except.ok ())

/-- Fields of the JSON object returned by
`ProposalManager::get_proposal_status`. -/
structure ProposalStatusView where
  id : String
  status : ProposalStatus
  approvals : Nat
  threshold : Nat
  timelock_until : Int
  executed_at : Option Int
  deriving DecidableEq, Repr

/-- Embedding of `ProposalManager::get_proposal_status`. -/
def get_proposal_status (s : SystemState) (proposal_id : String) :
    Except UpgradeError ProposalStatusView :=
  match s.proposals.find? (fun p => p.id == proposal_id) with
  | none => Except.error (UpgradeError.ProposalNotFound proposal_id)
  | some p =>
    Except.ok
      { id := p.id
        status := p.status
        approvals := p.approvals.length
        threshold := p.approval_threshold
        timelock_until := p.timelock_until
        executed_at := p.executed_at }

/-- The `/upgrade/:id/approve` handler of `src/backend/src/main.rs`:
it forwards directly to `MultisigCoordinator::approve_proposal`. -/
def approve_upgrade (s : SystemState) (proposal_id : String) :
    SystemState × Except UpgradeError Unit :=
  ({ s with multisig := (s.multisig.approve_proposal proposal_id).1 },
    (s.multisig.approve_proposal proposal_id).2)

/-- One state-mutating request of the public HTTP interface
(`src/backend/src/main.rs`), with the injected clock value and external
Squads outcome attached where the handler needs them. -/
inductive Op where
  | propose (now : Int) (buffer : String) (description : String)
  | approve (proposal_id : String)
  | execute (proposal_id : String) (now : Int)
      (squadsOutcome : Except UpgradeError String)
  | cancel (proposal_id : String)

/-- Effect of one request on the service state. -/
def step (s : SystemState) : Op → SystemState
  | Op.propose now buffer description =>
    (propose_upgrade s now buffer description).1
  | Op.approve pid => (approve_upgrade s pid).1
  | Op.execute pid now sq => (execute_upgrade s pid now sq).1
  | Op.cancel pid => (cancel_upgrade s pid).1

/-- State reached from the initial state by a request sequence. -/
def run (hasSquads : Bool) (ops : List Op) : SystemState :=
  ops.foldl step (initState hasSquads)

/-- A state is reachable when some request sequence produces it. -/
def Reachable (s : SystemState) : Prop :=
  ∃ hasSquads ops, s = run hasSquads ops

/-- Duplicate scan of `SecurityAuditor::verify_multisig_config`: walk the
member list with the set of members inserted so far (`HashSet::insert`
returns false on a repeat). -/
def hasDuplicateFrom (seen : List String) : List String → Bool
  | [] => false
  | m :: rest => if m ∈ seen then true else hasDuplicateFrom (m :: seen) rest

/-- Embedding of `SecurityAuditor::verify_multisig_config` from
`src/backend/src/security.rs`.  Members (`Pubkey`s) are represented as
strings and the `u8` threshold as `Nat` (all comparisons agree with the
`u8` ones on the range the checks admit, since the member count is capped
at 20 before the cast).  The minimum threshold
`(members.len() as f64 * 0.5).ceil() as u8` is exact in `f64` for counts
up to 20 and equals `(length + 1) / 2` in natural division. -/
def verify_multisig_config (members : List String) (threshold : Nat) :
    Except UpgradeError Bool :=
  if members.length < 3 then
    Except.error (UpgradeError.InternalError
      "Multisig must have at least 3 members")
  else if 20 < members.length then
    Except.error (UpgradeError.InternalError
      "Multisig should not exceed 20 members")
  else if threshold < 2 then
    Except.error (UpgradeError.InternalError "Threshold must be at least 2")
  else if members.length < threshold then
    Except.error (UpgradeError.InternalError
      "Threshold cannot exceed number of members")
  else if hasDuplicateFrom [] members then
    Except.error (UpgradeError.InternalError
      "Duplicate multisig members not allowed")
  else if threshold < (members.length + 1) / 2 then
    Except.error (UpgradeError.InternalError
      ("Threshold must be at least " ++ toString ((members.length + 1) / 2) ++
        " for security"))
  else Except.ok true

/-- The 48-hour floor `MIN_TIMELOCK` of `SecurityAuditor::verify_timelock`. -/
def MIN_TIMELOCK : Int := 48 * 60 * 60

/-- Embedding of `SecurityAuditor::verify_timelock` from
`src/backend/src/security.rs`. -/
def verify_timelock (timelock_seconds : Int) : Except UpgradeError Bool :=
  if timelock_seconds < MIN_TIMELOCK then
    Except.error (UpgradeError.InternalError
      ("Timelock must be at least " ++ toString MIN_TIMELOCK ++
        " seconds (48 hours)"))
  else Except.ok true

/-- The five recovery stages of `RollbackHandler::rollback_program`
(`src/backend/src/rollback.rs`), in pipeline order. -/
inductive RollbackStage where
  | pauseIntake
  | closePositions
  | returnFunds
  | deployOldProgram
  | resumeIntake
  deriving DecidableEq, Repr

/-- Outcomes of the five stage calls made by
`RollbackHandler::rollback_program`.  In the source each stage body is a
placeholder returning `Ok(())`; the environment injects each stage's
result so that the fallible calls the orchestration sequences with `?`
are modelled faithfully. -/
structure RollbackEnv where
  pause_system : Except UpgradeError Unit
  emergency_close_all_positions : Except UpgradeError Unit
  return_all_funds : Except UpgradeError Unit
  deploy_old_program : Except UpgradeError Unit
  resume_system : Except UpgradeError Unit

/-- Embedding of `RollbackHandler::rollback_program`: the five stages
sequenced with `?`-propagation, in source order. -/
def rollback_program (env : RollbackEnv) : Except UpgradeError Unit :=
  match env.pause_system with
  | Except.error e => Except.error e
  | Except.ok _ =>
    match env.emergency_close_all_positions with
    | Except.error e => Except.error e
    | Except.ok _ =>
      match env.return_all_funds with
      | Except.error e => Except.error e
      | Except.ok _ =>
        match env.deploy_old_program with
        | Except.error e => Except.error e
        | Except.ok _ => env.resume_system

/-- The full stage order of the rollback pipeline. -/
def rollback_stage_order : List RollbackStage :=
  [RollbackStage.pauseIntake, RollbackStage.closePositions,
    RollbackStage.returnFunds, RollbackStage.deployOldProgram,
    RollbackStage.resumeIntake]

/-- Stages actually invoked by `rollback_program`, read off the same
`?`-chain: a stage runs exactly when every earlier stage returned `Ok`. -/
def rollback_stages_run (env : RollbackEnv) : List RollbackStage :=
  [RollbackStage.pauseIntake] ++
    match env.pause_system with
    | Except.error _ => []
    | Except.ok _ =>
      [RollbackStage.closePositions] ++
        match env.emergency_close_all_positions with
        | Except.error _ => []
        | Except.ok _ =>
          [RollbackStage.returnFunds] ++
            match env.return_all_funds with
            | Except.error _ => []
            | Except.ok _ =>
              [RollbackStage.deployOldProgram] ++
                match env.deploy_old_program with
                | Except.error _ => []
                | Except.ok _ => [RollbackStage.resumeIntake]

/-- Migration job status from `src/backend/src/migration.rs`. -/
inductive MigrationStatus where
  | NotStarted
  | InProgress
  | Completed
  | Failed
  deriving DecidableEq, Repr

/-- Migration job record (`MigrationProgress` in
`src/backend/src/migration.rs`). -/
structure MigrationProgress where
  migration_id : String
  total_accounts : Nat
  migrated_accounts : Nat
  failed_accounts : Nat
  status : MigrationStatus
  started_at : Int
  completed_at : Option Int
  deriving DecidableEq, Repr

/-- Per-record migration errors from `src/backend/src/migration.rs`. -/
inductive MigrationError where
  | InvalidData
  | TransformationFailed
  | VerificationFailed
  | AccountNotFound
  deriving DecidableEq, Repr

/-- The `AccountMigrator` trait: a transformer and a verifier over
account bytes (bytes as `Nat`s below 256). -/
structure AccountMigrator where
  migrate : List Nat → Except MigrationError (List Nat)
  verify : List Nat → List Nat → Except MigrationError Bool

/-- Little-endian byte encoding used by `UserAccountMigrator::migrate`
(`to_le_bytes`): `w` bytes of `n`. -/
def leBytes (w : Nat) (n : Nat) : List Nat :=
  (List.range w).map (fun i => n / 256 ^ i % 256)

/-- Embedding of `UserAccountMigrator` (versions 1 to 2): append the
current timestamp as an `i64` and the new version as a `u32`; verify that
the old bytes are a strict prefix and that the appended fields are
present.  The timestamp read inside `migrate` is injected as `now`. -/
def userAccountMigrator (now : Int) : AccountMigrator :=
  { migrate := fun old_data =>
      if old_data.length < 40 then Except.error MigrationError.InvalidData
      else
        Except.ok (old_data ++ leBytes 8 ((now % (2 : Int) ^ 64).toNat) ++
          leBytes 4 2)
    verify := fun old_data new_data =>
      if new_data.length < old_data.length then Except.ok false
      else if new_data.take old_data.length ≠ old_data then Except.ok false
      else if new_data.length < old_data.length + 8 + 4 then Except.ok false
      else Except.ok true }

/-- Embedding of `MigrationManager::migrate_single_account`: the source
fetches a placeholder buffer of 40 zero bytes, applies the first
registered migrator and verifies the result. -/
def migrate_single_account (migrators : List AccountMigrator) :
    Except MigrationError Unit :=
  let old_data := List.replicate 40 0
  match migrators.head? with
  | none => Except.ok ()
  | some migrator =>
    match migrator.migrate old_data with
    | Except.error e => Except.error e
    | Except.ok new_data =>
      match migrator.verify old_data new_data with
      | Except.error e => Except.error e
      | Except.ok verified =>
        if verified then Except.ok ()
        else Except.error MigrationError.VerificationFailed

/-- Counter update performed for one record of the batch: a success
bumps `migrated_accounts`, a failure bumps `failed_accounts`, on the job
found by id. -/
def recordOutcome (migration_id : String)
    (outcome : Except MigrationError Unit)
    (migrations : List MigrationProgress) : List MigrationProgress :=
  match outcome with
  | Except.ok _ =>
    updateFirst (fun m => m.migration_id) migration_id
      (fun m => { m with migrated_accounts := m.migrated_accounts + 1 })
      migrations
  | Except.error _ =>
    updateFirst (fun m => m.migration_id) migration_id
      (fun m => { m with failed_accounts := m.failed_accounts + 1 })
      migrations

/-- The per-account loop of `MigrationManager::migrate_accounts_batch`. -/
def processAccounts (migration_id : String)
    (migrators : List AccountMigrator) :
    List String → List MigrationProgress → List MigrationProgress
  | [], migrations => migrations
  | _account :: rest, migrations =>
    processAccounts migration_id migrators rest
      (recordOutcome migration_id (migrate_single_account migrators)
        migrations)

/-- Embedding of `MigrationManager::migrate_accounts_batch`: process
every account, then mark the job `Completed` and stamp `completed_at`
(clock read injected as `completion_now`). -/
def migrate_accounts_batch (migration_id : String) (accounts : List String)
    (migrations : List MigrationProgress)
    (migrators : List AccountMigrator) (completion_now : Int) :
    List MigrationProgress :=
  updateFirst (fun m => m.migration_id) migration_id
    (fun m => { m with status := MigrationStatus.Completed
                       completed_at := some completion_now })
    (processAccounts migration_id migrators accounts migrations)

/-- Embedding of `MigrationManager::start_migration` up to spawning the
batch task: create the job record in `InProgress` with the counters at
zero.  `accounts` is the result of `identify_accounts_to_migrate` (an
external Solana query whose placeholder returns the empty list) and
`fresh_id` the UUID drawn for the job. -/
def start_migration (migrations : List MigrationProgress)
    (fresh_id : String) (now : Int) (accounts : List String) :
    List MigrationProgress × String :=
  let migration : MigrationProgress :=
    { migration_id := fresh_id
      total_accounts := accounts.length
      migrated_accounts := 0
      failed_accounts := 0
      status := MigrationStatus.InProgress
      started_at := now
      completed_at := none }
  (migrations ++ [migration], fresh_id)

/-- The proposal record that `propose_upgrade` appends to the store, as
a function of the pre-state and the call arguments. -/
def proposedRecord (s : SystemState) (now : Int)
    (buffer description : String) : Proposal :=
  { id := genId s.nextId
    proposer := "multisig"
    program := "program_id"
    new_buffer := buffer
    description := description
    proposed_at := now
    timelock_until := now + 48 * 60 * 60
    approvals := []
    approval_threshold := 3
    status := ProposalStatus.Proposed
    executed_at := none }

/-- The multisig record that `propose_upgrade` creates through
`propose_transaction`, stored under the second fresh id. -/
def proposedMsigRecord (s : SystemState) (description : String) :
    MultisigProposal :=
  { id := genId (s.nextId + 1)
    instruction := []
    description := description
    timelock := 48 * 60 * 60
    approvals := []
    threshold := s.multisig.threshold
    status := MultisigStatus.Pending }

/-- Invariant of every reachable service state: the timelock map is
never written (no handler calls `set_timelock`); every stored proposal
still has its creation-time approval list (empty) and hard-coded
threshold 3 and has never been executed; all ids come from the fresh-id
supply; and the `ProposalManager` ids are disjoint from the
`MultisigCoordinator` ids (each `propose_upgrade` call draws two distinct
UUIDs). -/
def GoodState (s : SystemState) : Prop :=
  s.timelocks = [] ∧
  (∀ p ∈ s.proposals,
      p.approvals = [] ∧ p.approval_threshold = 3 ∧
      p.status ≠ ProposalStatus.Executed ∧
      ∃ k, k < s.nextId ∧ p.id = genId k) ∧
  (∀ m ∈ s.multisig.proposals, ∃ k, k < s.nextId ∧ m.id = genId k) ∧
  (∀ p ∈ s.proposals, ∀ m ∈ s.multisig.proposals, p.id ≠ m.id)

/-- The proposal store holds a record with the given id whose status is
`Cancelled` (first-match semantics, as in the source's
`iter_mut().find`). -/
def CancelledAt (s : SystemState) (pid : String) : Prop :=
  ∃ p, s.proposals.find? (fun q => q.id == pid) = some p ∧
    p.status = ProposalStatus.Cancelled

/-- Fixture: a proposal record meeting the quorum check, part of a state
on which `execute_upgrade` succeeds.  Such a state is not reachable
through the public propose path — see the reachability theorems — but
exercises the success path of the function. -/
def executeWitnessProposal : Proposal :=
  { id := "p1"
    proposer := "multisig"
    program := "program_id"
    new_buffer := "buf"
    description := "d"
    proposed_at := 0
    timelock_until := 172800
    approvals := ["member1", "member2", "member3"]
    approval_threshold := 3
    status := ProposalStatus.Proposed
    executed_at := none }

/-- Fixture: the multisig record matching `executeWitnessProposal`,
already approved. -/
def executeWitnessMsigProposal : MultisigProposal :=
  { id := "p1"
    instruction := []
    description := "d"
    timelock := 172800
    approvals := ["member1", "member2", "member3"]
    threshold := 3
    status := MultisigStatus.Approved }

/-- Fixture: the full state for the execute success path. -/
def executeWitnessState : SystemState :=
  { multisig :=
      { proposals := [executeWitnessMsigProposal]
        members := ["member1", "member2", "member3", "member4", "member5"]
        threshold := 3
        hasSquads := false }
    timelocks := [("p1", 50)]
    proposals := [executeWitnessProposal]
    nextId := 0 }

/-- Fixture: a pending multisig proposal with no approvals yet. -/
def approveWitnessMsigProposal : MultisigProposal :=
  { id := "m1"
    instruction := []
    description := "d"
    timelock := 172800
    approvals := []
    threshold := 3
    status := MultisigStatus.Pending }

/-- Fixture: a coordinator holding one pending multisig proposal with no
approvals yet. -/
def approveWitnessCoordinator : MultisigCoordinator :=
  { proposals := [approveWitnessMsigProposal]
    members := ["member1", "member2", "member3", "member4", "member5"]
    threshold := 3
    hasSquads := false }

/-- Fixture: stage outcomes with a forced failure at the return-funds
stage. -/
def rollbackWitnessEnv : RollbackEnv :=
  { pause_system := Except.ok (),
    emergency_close_all_positions := Except.ok (),
    return_all_funds :=
      Except.error (UpgradeError.InternalError "fund return failed"),
    deploy_old_program := Except.ok (),
    resume_system := Except.ok () }

/-! ### Helper lemmas about the fresh-id supply and list updates -/

theorem genId_length (n : Nat) : (genId n).length = n := by
  simp [genId, String.length]

theorem genId_inj {a b : Nat} (h : genId a = genId b) : a = b := by
  have h2 := congrArg String.length h
  simpa [genId_length] using h2

theorem find?_append_some {α : Type} {p : α → Bool} {l1 : List α}
    (l2 : List α) {a : α} (h : l1.find? p = some a) :
    (l1 ++ l2).find? p = some a := by
  induction l1 with
  | nil => simp at h
  | cons x xs ih =>
    by_cases hx : p x
    · rw [List.find?_cons_of_pos _ hx] at h
      rw [List.cons_append, List.find?_cons_of_pos _ hx]
      exact h
    · rw [List.find?_cons_of_neg _ hx] at h
      rw [List.cons_append, List.find?_cons_of_neg _ hx]
      exact ih h

theorem find?_append_none {α : Type} {p : α → Bool} {l1 : List α}
    (l2 : List α) (h : l1.find? p = none) :
    (l1 ++ l2).find? p = l2.find? p := by
  induction l1 with
  | nil => simp
  | cons x xs ih =>
    by_cases hx : p x
    · rw [List.find?_cons_of_pos _ hx] at h
      exact absurd h (by simp)
    · rw [List.find?_cons_of_neg _ hx] at h
      rw [List.cons_append, List.find?_cons_of_neg _ hx]
      exact ih h

theorem mem_updateFirst {α : Type} {key : α → String} {pid : String}
    {f : α → α} {l : List α} {a : α} (h : a ∈ updateFirst key pid f l) :
    a ∈ l ∨ ∃ b, b ∈ l ∧ a = f b := by
  induction l with
  | nil => simp [updateFirst] at h
  | cons x xs ih =>
    simp only [updateFirst] at h
    by_cases hx : (key x == pid) = true
    · rw [if_pos hx] at h
      rcases List.mem_cons.mp h with h1 | h1
      · exact Or.inr ⟨x, List.mem_cons_self x xs, h1⟩
      · exact Or.inl (List.mem_cons_of_mem _ h1)
    · rw [if_neg hx] at h
      rcases List.mem_cons.mp h with h1 | h1
      · exact Or.inl (by simp [h1])
      · rcases ih h1 with h2 | ⟨b, hb, rfl⟩
        · exact Or.inl (List.mem_cons_of_mem _ h2)
        · exact Or.inr ⟨b, List.mem_cons_of_mem _ hb, rfl⟩

theorem find?_updateFirst_self {α : Type} (key : α → String) (pid : String)
    (f : α → α) (hf : ∀ a, key (f a) = key a) (l : List α) :
    (updateFirst key pid f l).find? (fun a => key a == pid) =
      (l.find? (fun a => key a == pid)).map f := by
  induction l with
  | nil => rfl
  | cons x xs ih =>
    simp only [updateFirst]
    by_cases hx : (key x == pid) = true
    · rw [if_pos hx]
      have hfx : (key (f x) == pid) = true := by rw [hf]; exact hx
      rw [@List.find?_cons_of_pos _ (fun a => key a == pid) (f x) xs hfx,
        @List.find?_cons_of_pos _ (fun a => key a == pid) x xs hx]
      rfl
    · rw [if_neg hx]
      rw [@List.find?_cons_of_neg _ (fun a => key a == pid) x
          (updateFirst key pid f xs) hx,
        @List.find?_cons_of_neg _ (fun a => key a == pid) x xs hx]
      exact ih

theorem find?_updateFirst_other {α : Type} (key : α → String)
    {pid qid : String} (f : α → α) (hf : ∀ a, key (f a) = key a)
    (hne : pid ≠ qid) (l : List α) :
    (updateFirst key qid f l).find? (fun a => key a == pid) =
      l.find? (fun a => key a == pid) := by
  induction l with
  | nil => rfl
  | cons x xs ih =>
    simp only [updateFirst]
    by_cases hx : (key x == qid) = true
    · rw [if_pos hx]
      have hkey : key x = qid := by simpa using hx
      have hxp : ¬ ((key x == pid) = true) := by
        simp only [hkey, beq_iff_eq]
        exact fun h => hne h.symm
      have hfxp : ¬ ((key (f x) == pid) = true) := by
        rw [hf]; exact hxp
      rw [@List.find?_cons_of_neg _ (fun a => key a == pid) (f x) xs hfxp,
        @List.find?_cons_of_neg _ (fun a => key a == pid) x xs hxp]
    · rw [if_neg hx]
      by_cases hxp : (key x == pid) = true
      · rw [@List.find?_cons_of_pos _ (fun a => key a == pid) x
            (updateFirst key qid f xs) hxp,
          @List.find?_cons_of_pos _ (fun a => key a == pid) x xs hxp]
      · rw [@List.find?_cons_of_neg _ (fun a => key a == pid) x
            (updateFirst key qid f xs) hxp,
          @List.find?_cons_of_neg _ (fun a => key a == pid) x xs hxp]
        exact ih

theorem approveUpdate_id (approver : String) (p : MultisigProposal) :
    (approveUpdate approver p).id = p.id := by
  unfold approveUpdate
  split <;> rfl

theorem hasDuplicateFrom_eq_false (seen l : List String) :
    hasDuplicateFrom seen l = false ↔
      l.Nodup ∧ ∀ x ∈ l, x ∉ seen := by
  induction l generalizing seen with
  | nil => simp [hasDuplicateFrom]
  | cons m rest ih =>
    simp only [hasDuplicateFrom]
    by_cases hm : m ∈ seen
    · rw [if_pos hm]
      constructor
      · intro h; exact absurd h (by simp)
      · rintro ⟨_, hall⟩
        exact absurd hm (hall m (List.mem_cons_self m rest))
    · rw [if_neg hm]
      rw [ih (m :: seen)]
      constructor
      · rintro ⟨hnd, hall⟩
        refine ⟨List.nodup_cons.mpr ⟨?_, hnd⟩, ?_⟩
        · intro hmem
          exact (hall m hmem) (List.mem_cons_self m seen)
        · intro x hx
          rcases List.mem_cons.mp hx with rfl | hxr
          · exact hm
          · intro hxseen
            exact (hall x hxr) (List.mem_cons_of_mem m hxseen)
      · rintro ⟨hnd, hall⟩
        obtain ⟨hm_rest, hnd_rest⟩ := List.nodup_cons.mp hnd
        refine ⟨hnd_rest, fun x hx hxm => ?_⟩
        rcases List.mem_cons.mp hxm with rfl | hxseen
        · exact hm_rest hx
        · exact (hall x (List.mem_cons_of_mem m hx)) hxseen

/-! ### Shape facts about the request handlers -/

theorem propose_upgrade_eq (s : SystemState) (now : Int)
    (buffer description : String) :
    propose_upgrade s now buffer description =
      ({ s with
          multisig := { s.multisig with
            proposals := s.multisig.proposals ++
              [proposedMsigRecord s description] }
          proposals := s.proposals ++ [proposedRecord s now buffer description]
          nextId := s.nextId + 2 },
        Except.ok (genId s.nextId)) := rfl

theorem execute_fst_of_no_timelock (s : SystemState) (pid : String)
    (now : Int) (sq : Except UpgradeError String) (h : s.timelocks = []) :
    (execute_upgrade s pid now sq).1 = s := by
  have hw : wait_for_timelock s pid now =
      Except.error (UpgradeError.ProposalNotFound pid) := by
    simp [wait_for_timelock, get_timelock_end, lookupTimelock, h]
  unfold execute_upgrade
  cases hfind : s.proposals.find? (fun p => p.id == pid) with
  | none => rfl
  | some p =>
    dsimp only
    split
    · rfl
    · split
      · rfl
      · rw [hw]

theorem approve_msig_ids (c : MultisigCoordinator) (pid : String) :
    ∀ m ∈ ((c.approve_proposal pid).1).proposals,
      ∃ m0, m0 ∈ c.proposals ∧ m.id = m0.id := by
  unfold MultisigCoordinator.approve_proposal
  cases hfind : c.proposals.find? (fun p => p.id == pid) with
  | none =>
    dsimp only
    intro m hm
    exact ⟨m, hm, rfl⟩
  | some p =>
    dsimp only
    split
    · intro m hm
      exact ⟨m, hm, rfl⟩
    · intro m hm
      rcases mem_updateFirst hm with h1 | ⟨b, hb, rfl⟩
      · exact ⟨m, h1, rfl⟩
      · exact ⟨b, hb, approveUpdate_id _ _⟩

theorem cancel_proposals_chars (s : SystemState) (pid : String) :
    ∀ p ∈ (cancel_upgrade s pid).1.proposals,
      ∃ p0, p0 ∈ s.proposals ∧ p.approvals = p0.approvals ∧
        p.approval_threshold = p0.approval_threshold ∧ p.id = p0.id ∧
        (p.status = p0.status ∨ p.status = ProposalStatus.Cancelled) := by
  unfold cancel_upgrade
  cases hfind : s.proposals.find? (fun q => q.id == pid) with
  | none =>
    dsimp only
    intro p hp
    exact ⟨p, hp, rfl, rfl, rfl, Or.inl rfl⟩
  | some q =>
    dsimp only
    split
    · intro p hp
      exact ⟨p, hp, rfl, rfl, rfl, Or.inl rfl⟩
    · intro p hp
      rcases mem_updateFirst hp with h1 | ⟨b, hb, rfl⟩
      · exact ⟨p, h1, rfl, rfl, rfl, Or.inl rfl⟩
      · exact ⟨b, hb, rfl, rfl, rfl, Or.inr rfl⟩

/-! ### The reachable-state invariant -/

theorem goodState_init (b : Bool) : GoodState (initState b) := by
  refine ⟨rfl, ?_, ?_, ?_⟩ <;>
    simp [initState, MultisigCoordinator.new]

theorem goodState_propose (s : SystemState) (now : Int)
    (buffer description : String) (hg : GoodState s) :
    GoodState (propose_upgrade s now buffer description).1 := by
  obtain ⟨ht, hp, hm, hd⟩ := hg
  rw [propose_upgrade_eq]
  dsimp only
  refine ⟨ht, ?_, ?_, ?_⟩
  · intro p hpm
    rcases List.mem_append.mp hpm with h1 | h1
    · obtain ⟨ha, hth, hst, k, hk, hk2⟩ := hp p h1
      exact ⟨ha, hth, hst, k, by show k < s.nextId + 2; omega, hk2⟩
    · rcases List.mem_singleton.mp h1 with rfl
      exact ⟨rfl, rfl, by simp [proposedRecord], s.nextId,
        by show s.nextId < s.nextId + 2; omega, rfl⟩
  · intro m hmm
    rcases List.mem_append.mp hmm with h1 | h1
    · obtain ⟨k, hk, hk2⟩ := hm m h1
      exact ⟨k, by show k < s.nextId + 2; omega, hk2⟩
    · rcases List.mem_singleton.mp h1 with rfl
      exact ⟨s.nextId + 1, by show s.nextId + 1 < s.nextId + 2; omega, rfl⟩
  · intro p hpm m hmm
    rcases List.mem_append.mp hpm with h1 | h1 <;>
      rcases List.mem_append.mp hmm with h2 | h2
    · exact hd p h1 m h2
    · rcases List.mem_singleton.mp h2 with rfl
      obtain ⟨_, _, _, k, hk, hk2⟩ := hp p h1
      rw [hk2]
      show genId k ≠ (proposedMsigRecord s description).id
      intro hcontra
      have := genId_inj hcontra
      omega
    · rcases List.mem_singleton.mp h1 with rfl
      obtain ⟨k, hk, hk2⟩ := hm m h2
      show (proposedRecord s now buffer description).id ≠ m.id
      rw [hk2]
      intro hcontra
      have := genId_inj hcontra
      omega
    · rcases List.mem_singleton.mp h1 with rfl
      rcases List.mem_singleton.mp h2 with rfl
      show (proposedRecord s now buffer description).id ≠
        (proposedMsigRecord s description).id
      intro hcontra
      have := genId_inj hcontra
      omega

theorem goodState_approve (s : SystemState) (pid : String)
    (hg : GoodState s) : GoodState (approve_upgrade s pid).1 := by
  obtain ⟨ht, hp, hm, hd⟩ := hg
  have hids := approve_msig_ids s.multisig pid
  refine ⟨ht, hp, ?_, ?_⟩
  · intro m hmem
    obtain ⟨m0, hm0, hid⟩ := hids m hmem
    obtain ⟨k, hk, hk2⟩ := hm m0 hm0
    exact ⟨k, hk, by rw [hid, hk2]⟩
  · intro p hpmem m hmem
    obtain ⟨m0, hm0, hid⟩ := hids m hmem
    rw [hid]
    exact hd p hpmem m0 hm0

theorem goodState_cancel (s : SystemState) (pid : String)
    (hg : GoodState s) : GoodState (cancel_upgrade s pid).1 := by
  obtain ⟨ht, hp, hm, hd⟩ := hg
  have hchars := cancel_proposals_chars s pid
  have htl : (cancel_upgrade s pid).1.timelocks = s.timelocks := by
    unfold cancel_upgrade
    cases hfind : s.proposals.find? (fun q => q.id == pid) with
    | none => rfl
    | some q =>
      dsimp only
      split <;> rfl
  have hms : (cancel_upgrade s pid).1.multisig = s.multisig := by
    unfold cancel_upgrade
    cases hfind : s.proposals.find? (fun q => q.id == pid) with
    | none => rfl
    | some q =>
      dsimp only
      split <;> rfl
  have hnext : (cancel_upgrade s pid).1.nextId = s.nextId := by
    unfold cancel_upgrade
    cases hfind : s.proposals.find? (fun q => q.id == pid) with
    | none => rfl
    | some q =>
      dsimp only
      split <;> rfl
  refine ⟨by rw [htl]; exact ht, ?_, ?_, ?_⟩
  · intro p hpm
    obtain ⟨p0, hp0, ha, hth, hid, hst⟩ := hchars p hpm
    obtain ⟨ha0, hth0, hst0, k, hk, hk2⟩ := hp p0 hp0
    refine ⟨by rw [ha]; exact ha0, by rw [hth]; exact hth0, ?_,
      k, by rw [hnext]; exact hk, by rw [hid]; exact hk2⟩
    rcases hst with h1 | h1
    · rw [h1]; exact hst0
    · rw [h1]; intro hcontra; cases hcontra
  · intro m hmm
    rw [hms] at hmm
    obtain ⟨k, hk, hk2⟩ := hm m hmm
    exact ⟨k, by rw [hnext]; exact hk, hk2⟩
  · intro p hpm m hmm
    rw [hms] at hmm
    obtain ⟨p0, hp0, _, _, hid, _⟩ := hchars p hpm
    rw [hid]
    exact hd p0 hp0 m hmm

theorem goodState_step (s : SystemState) (op : Op) (hg : GoodState s) :
    GoodState (step s op) := by
  cases op with
  | propose now buffer description =>
    exact goodState_propose s now buffer description hg
  | approve pid => exact goodState_approve s pid hg
  | execute pid now sq =>
    show GoodState (execute_upgrade s pid now sq).1
    rw [execute_fst_of_no_timelock s pid now sq hg.1]
    exact hg
  | cancel pid => exact goodState_cancel s pid hg

theorem goodState_foldl (ops : List Op) :
    ∀ s, GoodState s → GoodState (ops.foldl step s) := by
  induction ops with
  | nil => exact fun s hs => hs
  | cons op rest ih =>
    intro s hs
    exact ih _ (goodState_step s op hs)

theorem reachable_goodState {s : SystemState} (h : Reachable s) :
    GoodState s := by
  obtain ⟨b, ops, rfl⟩ := h
  exact goodState_foldl ops _ (goodState_init b)

/-! ### Persistence of cancellation -/

theorem cancelledAt_step (s : SystemState) (op : Op) (pid : String)
    (hg : GoodState s) (hc : CancelledAt s pid) :
    CancelledAt (step s op) pid := by
  obtain ⟨p, hfind, hstat⟩ := hc
  cases op with
  | propose now buffer description =>
    refine ⟨p, ?_, hstat⟩
    show (propose_upgrade s now buffer description).1.proposals.find? _ =
      some p
    rw [propose_upgrade_eq]
    exact find?_append_some _ hfind
  | approve qid => exact ⟨p, hfind, hstat⟩
  | execute qid now sq =>
    show CancelledAt (execute_upgrade s qid now sq).1 pid
    rw [execute_fst_of_no_timelock s qid now sq hg.1]
    exact ⟨p, hfind, hstat⟩
  | cancel qid =>
    show CancelledAt (cancel_upgrade s qid).1 pid
    by_cases hq : pid = qid
    · subst hq
      refine ⟨{ p with status := ProposalStatus.Cancelled }, ?_, rfl⟩
      unfold cancel_upgrade
      rw [hfind]
      dsimp only
      rw [if_neg (show ¬ p.status = ProposalStatus.Executed by
        rw [hstat]; decide)]
      dsimp only
      rw [find?_updateFirst_self (fun q => q.id) pid
        (fun q => { q with status := ProposalStatus.Cancelled })
        (fun a => rfl) s.proposals]
      rw [hfind]
      rfl
    · refine ⟨p, ?_, hstat⟩
      unfold cancel_upgrade
      cases hfq : s.proposals.find? (fun q => q.id == qid) with
      | none =>
        dsimp only
        exact hfind
      | some q =>
        dsimp only
        split
        · exact hfind
        · dsimp only
          rw [find?_updateFirst_other (fun q => q.id)
            (fun q => { q with status := ProposalStatus.Cancelled })
            (fun a => rfl) hq s.proposals]
          exact hfind

theorem cancelledAt_foldl (pid : String) (ops : List Op) :
    ∀ s, GoodState s → CancelledAt s pid →
      CancelledAt (ops.foldl step s) pid := by
  induction ops with
  | nil => exact fun s _ hc => hc
  | cons op rest ih =>
    intro s hg hc
    exact ih _ (goodState_step s op hg) (cancelledAt_step s op pid hg hc)

/-! ### Claim theorems -/

theorem approveUpdate_mem (a : String) (p : MultisigProposal) :
    a ∈ (approveUpdate a p).approvals := by
  unfold approveUpdate
  split <;> simp

/-- Counterexample for C1 as stated: `execute_upgrade` does not compare
the clock against the proposal record's own `timelock_until` field — it
consults only the `TimelockManager` map entry.  At this concrete state
the map entry for `"p1"` is 50 while the record's `timelock_until` is
172800, and the call at `now = 100` succeeds and sets the status to
`Executed` even though the quorum conjunct holds and
`100 < timelock_until`: the time conjunct of the claim fails. -/
theorem execute_before_record_timelock_counterexample :
    (execute_upgrade executeWitnessState "p1" 100 (Except.ok "")).2 =
        Except.ok () ∧
      (execute_upgrade executeWitnessState "p1" 100
          (Except.ok "")).1.proposals.find? (fun q => q.id == "p1") =
        some { executeWitnessProposal with
                 status := ProposalStatus.Executed
                 executed_at := some 100 } ∧
      executeWitnessState.proposals.find? (fun q => q.id == "p1") =
        some executeWitnessProposal ∧
      executeWitnessProposal.approval_threshold ≤
        executeWitnessProposal.approvals.length ∧
      (100 : Int) < executeWitnessProposal.timelock_until :=
  ⟨rfl, rfl, rfl, by decide, by decide⟩

/-- C1 (amended): whenever `execute_upgrade` succeeds (i.e. sets the
proposal's status to `Executed`), the proposal record found at call time
has an approval count at least its `approval_threshold`, and the call's
clock value is at least the timelock expiry registered for that proposal
id in the `TimelockManager` map that `wait_for_timelock` consults — not
the record's own `timelock_until` field, which the execute path never
reads (see the counterexample above). -/
theorem execute_ok_quorum_and_timelock (s : SystemState) (pid : String)
    (now : Int) (sq : Except UpgradeError String)
    (h : (execute_upgrade s pid now sq).2 = Except.ok ()) :
    ∃ p, s.proposals.find? (fun q => q.id == pid) = some p ∧
      p.approval_threshold ≤ p.approvals.length ∧
      ∃ tl, lookupTimelock s.timelocks pid = some tl ∧ tl ≤ now ∧
        ∃ p2, (execute_upgrade s pid now sq).1.proposals.find?
            (fun q => q.id == pid) = some p2 ∧
          p2.status = ProposalStatus.Executed := by
  unfold execute_upgrade at h
  cases hfind : s.proposals.find? (fun q => q.id == pid) with
  | none =>
    rw [hfind] at h
    simp at h
  | some p =>
    rw [hfind] at h
    dsimp only at h
    by_cases h1 : p.status = ProposalStatus.Executed
    · rw [if_pos h1] at h
      simp at h
    · rw [if_neg h1] at h
      by_cases h2 : p.status = ProposalStatus.Cancelled
      · rw [if_pos h2] at h
        simp at h
      · rw [if_neg h2] at h
        cases hw : wait_for_timelock s pid now with
        | error e =>
          rw [hw] at h
          simp at h
        | ok u =>
          rw [hw] at h
          dsimp only at h
          by_cases h3 : p.approvals.length < p.approval_threshold
          · rw [if_pos h3] at h
            simp at h
          · rw [if_neg h3] at h
            cases hx : (s.multisig.execute_transaction pid sq).2 with
            | error e =>
              rw [hx] at h
              simp at h
            | ok u2 =>
              refine ⟨p, rfl, by omega, ?_⟩
              have htl : ∃ tl, lookupTimelock s.timelocks pid = some tl ∧
                  tl ≤ now := by
                unfold wait_for_timelock get_timelock_end at hw
                cases hl : lookupTimelock s.timelocks pid with
                | none =>
                  rw [hl] at hw
                  simp at hw
                | some tl =>
                  rw [hl] at hw
                  dsimp only at hw
                  by_cases h4 : now < tl
                  · rw [if_pos h4] at hw
                    simp at hw
                  · exact ⟨tl, rfl, by omega⟩
              obtain ⟨tl, hl, hle⟩ := htl
              refine ⟨tl, hl, hle, ?_⟩
              unfold execute_upgrade
              rw [hfind]
              dsimp only
              rw [if_neg h1, if_neg h2, hw]
              dsimp only
              rw [if_neg h3, hx]
              dsimp only
              rw [find?_updateFirst_self (fun q => q.id) pid
                (fun q => { q with status := ProposalStatus.Executed
                                   executed_at := some now })
                (fun a => rfl) s.proposals]
              rw [hfind]
              exact ⟨_, rfl, rfl⟩

/-- Witness for C1: a concrete state on which `execute_upgrade` succeeds
and the guarantees hold. -/
theorem execute_ok_quorum_and_timelock_witness :
    ∃ p, executeWitnessState.proposals.find? (fun q => q.id == "p1") =
        some p ∧
      p.approval_threshold ≤ p.approvals.length ∧
      ∃ tl, lookupTimelock executeWitnessState.timelocks "p1" = some tl ∧
        tl ≤ 100 ∧
        ∃ p2, (execute_upgrade executeWitnessState "p1" 100
            (Except.ok "")).1.proposals.find? (fun q => q.id == "p1") =
          some p2 ∧ p2.status = ProposalStatus.Executed :=
  execute_ok_quorum_and_timelock executeWitnessState "p1" 100
    (Except.ok "") rfl

/-- Either `execute_upgrade` leaves the proposal store unchanged, or it
returned `Ok` (every error path returns before the record is mutated). -/
theorem execute_proposals_or_ok (s : SystemState) (pid : String)
    (now : Int) (sq : Except UpgradeError String) :
    (execute_upgrade s pid now sq).1.proposals = s.proposals ∨
      (execute_upgrade s pid now sq).2 = Except.ok () := by
  unfold execute_upgrade
  cases hfind : s.proposals.find? (fun q => q.id == pid) with
  | none => exact Or.inl rfl
  | some p =>
    dsimp only
    by_cases h1 : p.status = ProposalStatus.Executed
    · rw [if_pos h1]
      exact Or.inl rfl
    · rw [if_neg h1]
      by_cases h2 : p.status = ProposalStatus.Cancelled
      · rw [if_pos h2]
        exact Or.inl rfl
      · rw [if_neg h2]
        cases hw : wait_for_timelock s pid now with
        | error e2 => exact Or.inl rfl
        | ok u =>
          dsimp only
          by_cases h3 : p.approvals.length < p.approval_threshold
          · rw [if_pos h3]
            exact Or.inl rfl
          · rw [if_neg h3]
            cases hx : (s.multisig.execute_transaction pid sq).2 with
            | error e2 => exact Or.inl rfl
            | ok u2 => exact Or.inr rfl

/-- C3: when `execute_upgrade` returns an error — in particular when the
multisig execution backend call fails after the status, timelock and
approval checks passed — the proposal store is unchanged, so the
operation is retryable; in particular the proposal's `status` and
`executed_at` are untouched. -/
theorem execute_error_leaves_proposals_unchanged (s : SystemState)
    (pid : String) (now : Int) (sq : Except UpgradeError String)
    (e : UpgradeError)
    (h : (execute_upgrade s pid now sq).2 = Except.error e) :
    (execute_upgrade s pid now sq).1.proposals = s.proposals := by
  rcases execute_proposals_or_ok s pid now sq with h1 | h1
  · exact h1
  · rw [h1] at h
    simp at h

/-- Witness for C3: executing an unknown id on the empty initial state
fails and leaves the (empty) proposal store unchanged. -/
theorem execute_error_leaves_proposals_unchanged_witness :
    (execute_upgrade (initState false) "x" 0 (Except.ok "")).2 =
        Except.error (UpgradeError.ProposalNotFound "x") ∧
      (execute_upgrade (initState false) "x" 0
        (Except.ok "")).1.proposals = (initState false).proposals :=
  ⟨rfl, execute_error_leaves_proposals_unchanged (initState false) "x" 0
    (Except.ok "") (UpgradeError.ProposalNotFound "x") rfl⟩

/-- C4: once an approval by the (hard-coded) approver has been recorded
by a successful `approve_proposal` call, the repeated call for the same
proposal id fails with the duplicate-approval error — rendered by the
source as `InternalError("Already approved")` — and returns the
coordinator unchanged, so the recorded approval count never increases. -/
theorem repeated_approve_fails (c : MultisigCoordinator) (pid : String)
    (c' : MultisigCoordinator)
    (h : c.approve_proposal pid = (c', Except.ok ())) :
    (∃ m, c'.proposals.find? (fun p => p.id == pid) = some m ∧
      "member1" ∈ m.approvals) ∧
    c'.approve_proposal pid =
      (c', Except.error (UpgradeError.InternalError "Already approved")) := by
  unfold MultisigCoordinator.approve_proposal at h
  cases hfind : c.proposals.find? (fun p => p.id == pid) with
  | none =>
    rw [hfind] at h
    simp [Prod.ext_iff] at h
  | some p =>
    rw [hfind] at h
    dsimp only at h
    by_cases hmem : "member1" ∈ p.approvals
    · rw [if_pos hmem] at h
      simp [Prod.ext_iff] at h
    · rw [if_neg hmem] at h
      have hc : ({ c with proposals := (updateFirst (fun p => p.id) pid
          (approveUpdate "member1") c.proposals) } :
            MultisigCoordinator) = c' := congrArg Prod.fst h
      subst hc
      have hfind2 : (updateFirst (fun p => p.id) pid
          (approveUpdate "member1") c.proposals).find?
            (fun p => p.id == pid) = some (approveUpdate "member1" p) := by
        rw [find?_updateFirst_self (fun q => q.id) pid
          (approveUpdate "member1") (approveUpdate_id "member1") c.proposals]
        rw [hfind]
        rfl
      constructor
      · exact ⟨approveUpdate "member1" p, hfind2,
          approveUpdate_mem "member1" p⟩
      · unfold MultisigCoordinator.approve_proposal
        dsimp only
        rw [hfind2]
        dsimp only
        rw [if_pos (approveUpdate_mem "member1" p)]

/-- Witness for C4: approving the pending fixture proposal once and then
again. -/
theorem repeated_approve_fails_witness :
    (∃ m, ((approveWitnessCoordinator.approve_proposal
          "m1").1).proposals.find? (fun p => p.id == "m1") = some m ∧
      "member1" ∈ m.approvals) ∧
    ((approveWitnessCoordinator.approve_proposal "m1").1).approve_proposal
        "m1" =
      ((approveWitnessCoordinator.approve_proposal "m1").1,
        Except.error (UpgradeError.InternalError "Already approved")) :=
  repeated_approve_fails approveWitnessCoordinator "m1" _ rfl

/-- C7: `verify_multisig_config` accepts exactly the configurations with
member count in `[3, 20]`, threshold in `[2, count]`, threshold at least
`ceil(count / 2)` (which the source computes in `f64`, exactly on this
range) and pairwise-distinct members; every violation yields an error —
values are never silently clamped. -/
theorem verify_multisig_config_iff (members : List String)
    (threshold : Nat) :
    (verify_multisig_config members threshold = Except.ok true ↔
      (3 ≤ members.length ∧ members.length ≤ 20 ∧ 2 ≤ threshold ∧
        threshold ≤ members.length ∧
        (members.length + 1) / 2 ≤ threshold ∧ members.Nodup)) ∧
    (verify_multisig_config members threshold = Except.ok true ∨
      ∃ msg, verify_multisig_config members threshold =
        Except.error (UpgradeError.InternalError msg)) := by
  have hdup : hasDuplicateFrom [] members = false ↔ members.Nodup := by
    rw [hasDuplicateFrom_eq_false]
    simp
  unfold verify_multisig_config
  split_ifs with h1 h2 h3 h4 h5 h6
  · exact ⟨⟨fun h => absurd h (by simp),
      fun hc => absurd hc.1 (by omega)⟩, Or.inr ⟨_, rfl⟩⟩
  · exact ⟨⟨fun h => absurd h (by simp),
      fun hc => absurd hc.2.1 (by omega)⟩, Or.inr ⟨_, rfl⟩⟩
  · exact ⟨⟨fun h => absurd h (by simp),
      fun hc => absurd hc.2.2.1 (by omega)⟩, Or.inr ⟨_, rfl⟩⟩
  · exact ⟨⟨fun h => absurd h (by simp),
      fun hc => absurd hc.2.2.2.1 (by omega)⟩, Or.inr ⟨_, rfl⟩⟩
  · refine ⟨⟨fun h => absurd h (by simp), fun hc => ?_⟩, Or.inr ⟨_, rfl⟩⟩
    exact absurd (hdup.mpr hc.2.2.2.2.2) (by simp [h5])
  · exact ⟨⟨fun h => absurd h (by simp),
      fun hc => absurd hc.2.2.2.2.1 (by omega)⟩, Or.inr ⟨_, rfl⟩⟩
  · refine ⟨⟨fun _ => ?_, fun _ => rfl⟩, Or.inl rfl⟩
    have hfalse : hasDuplicateFrom [] members = false := by
      simpa using h5
    exact ⟨by omega, by omega, by omega, by omega, by omega,
      hdup.mp hfalse⟩

/-- Witness for C7: a valid 2-of-3 configuration is accepted. -/
theorem verify_multisig_config_iff_witness :
    verify_multisig_config ["a", "b", "c"] 2 = Except.ok true :=
  (verify_multisig_config_iff ["a", "b", "c"] 2).1.mpr (by decide)

/-- C9: `rollback_program` invokes its five stages in the fixed order
pause, close positions, return funds, redeploy, resume — the stages run
always form a prefix of that order — and when the return-funds stage
fails (the earlier stages having succeeded), the pipeline surfaces that
stage's error and neither the redeploy stage nor the resume stage is
invoked. -/
theorem rollback_stage_ordering_and_halt (env : RollbackEnv) :
    (∃ k, rollback_stages_run env = rollback_stage_order.take k) ∧
    ∀ e, env.pause_system = Except.ok () →
      env.emergency_close_all_positions = Except.ok () →
      env.return_all_funds = Except.error e →
      rollback_program env = Except.error e ∧
        RollbackStage.deployOldProgram ∉ rollback_stages_run env ∧
        RollbackStage.resumeIntake ∉ rollback_stages_run env := by
  obtain ⟨p, c, r, d, rs⟩ := env
  constructor
  · cases p with
    | error e => exact ⟨1, rfl⟩
    | ok u =>
      cases c with
      | error e => exact ⟨2, rfl⟩
      | ok u2 =>
        cases r with
        | error e => exact ⟨3, rfl⟩
        | ok u3 =>
          cases d with
          | error e => exact ⟨4, rfl⟩
          | ok u4 => exact ⟨5, rfl⟩
  · intro e hp hc hr
    subst hp
    subst hc
    subst hr
    exact ⟨rfl, by simp [rollback_stages_run], by simp [rollback_stages_run]⟩

/-- Witness for C9: the forced failure at the return-funds stage. -/
theorem rollback_stage_ordering_and_halt_witness :
    rollback_program rollbackWitnessEnv =
        Except.error (UpgradeError.InternalError "fund return failed") ∧
      RollbackStage.deployOldProgram ∉
        rollback_stages_run rollbackWitnessEnv ∧
      RollbackStage.resumeIntake ∉ rollback_stages_run rollbackWitnessEnv :=
  (rollback_stage_ordering_and_halt rollbackWitnessEnv).2
    (UpgradeError.InternalError "fund return failed") rfl rfl rfl

/-- C10: the 48-hour timelock floor holds at creation independent of
caller input.  `propose_upgrade` accepts no caller-chosen delay at all:
every proposal it creates carries exactly the hard-coded 48-hour delay
(`timelock_until = proposed_at + MIN_TIMELOCK`), so no proposal with a
shorter delay can ever be created; and the auditor check
`verify_timelock` rejects any requested delay below the floor. -/
theorem timelock_floor_at_creation :
    (∀ d : Int, d < MIN_TIMELOCK →
      ∃ msg, verify_timelock d =
        Except.error (UpgradeError.InternalError msg)) ∧
    (∀ (s : SystemState) (now : Int) (buffer description : String),
      ∃ p : Proposal,
        (propose_upgrade s now buffer description).1.proposals =
            s.proposals ++ [p] ∧
          (propose_upgrade s now buffer description).2 = Except.ok p.id ∧
          p.proposed_at = now ∧
          p.timelock_until = now + MIN_TIMELOCK) := by
  constructor
  · intro d hd
    refine ⟨"Timelock must be at least " ++ toString MIN_TIMELOCK ++
      " seconds (48 hours)", ?_⟩
    unfold verify_timelock
    rw [if_pos hd]
  · intro s now buffer description
    refine ⟨proposedRecord s now buffer description, ?_, ?_, rfl, rfl⟩
    · rw [propose_upgrade_eq]
    · rw [propose_upgrade_eq]
      rfl

/-- Witness for C10: a zero-second request is rejected by the auditor
check, and a concrete propose call creates the 48-hour record. -/
theorem timelock_floor_at_creation_witness :
    (∃ msg, verify_timelock 0 =
      Except.error (UpgradeError.InternalError msg)) ∧
    (∃ p : Proposal,
      (propose_upgrade (initState false) 7 "b" "d").1.proposals =
          (initState false).proposals ++ [p] ∧
        (propose_upgrade (initState false) 7 "b" "d").2 = Except.ok p.id ∧
        p.proposed_at = 7 ∧ p.timelock_until = 7 + MIN_TIMELOCK) :=
  ⟨timelock_floor_at_creation.1 0 (by decide),
    timelock_floor_at_creation.2 (initState false) 7 "b" "d"⟩

/-- C5: in every reachable state the timelock map is empty
(`propose_upgrade` never registers the returned id in the
`TimelockManager`), the multisig record lives under a different generated
id than every stored proposal, no stored proposal ever has status
`Executed`, and executing any stored, non-cancelled proposal id — at any
clock value, in particular past the 48-hour instant — fails with
`ProposalNotFound`. -/
theorem propose_path_never_executes (s : SystemState) (pid : String)
    (now : Int) (sq : Except UpgradeError String) (h : Reachable s) :
    s.timelocks = [] ∧
    (∀ p ∈ s.proposals, p.status ≠ ProposalStatus.Executed) ∧
    (∀ p ∈ s.proposals, ∀ m ∈ s.multisig.proposals, p.id ≠ m.id) ∧
    (∀ p, s.proposals.find? (fun q => q.id == pid) = some p →
      p.status ≠ ProposalStatus.Cancelled →
      (execute_upgrade s pid now sq).2 =
        Except.error (UpgradeError.ProposalNotFound pid)) := by
  obtain ⟨ht, hp, hm, hd⟩ := reachable_goodState h
  refine ⟨ht, fun p hpm => (hp p hpm).2.2.1, hd, ?_⟩
  intro p hfind hpc
  have hne : p.status ≠ ProposalStatus.Executed :=
    (hp p (List.mem_of_find?_eq_some hfind)).2.2.1
  have hw : wait_for_timelock s pid now =
      Except.error (UpgradeError.ProposalNotFound pid) := by
    simp [wait_for_timelock, get_timelock_end, lookupTimelock, ht]
  unfold execute_upgrade
  rw [hfind]
  dsimp only
  rw [if_neg hne, if_neg hpc, hw]

/-- Witness for C5: propose a concrete upgrade, then execute the returned
id far past the 48-hour instant; it fails with `ProposalNotFound`. -/
theorem propose_path_never_executes_witness :
    (execute_upgrade (run false [Op.propose 100 "buf" "desc"]) (genId 0)
        1000000 (Except.ok "")).2 =
      Except.error (UpgradeError.ProposalNotFound (genId 0)) :=
  (propose_path_never_executes (run false [Op.propose 100 "buf" "desc"])
      (genId 0) 1000000 (Except.ok "")
      ⟨false, [Op.propose 100 "buf" "desc"], rfl⟩).2.2.2
    (proposedRecord (initState false) 100 "buf" "desc") (by decide)
    (by decide)

/-- C6: an approve call mutates only the coordinator's own list — the
`ProposalManager` store is untouched — and in every reachable state every
stored proposal still has an empty approval list and the fixed threshold
3, so `get_proposal_status` reports an approvals count of 0 against
threshold 3 (and the quorum comparison inside `execute_upgrade` would
read the same values). -/
theorem approve_does_not_touch_proposal_store (s : SystemState)
    (pid : String) :
    (approve_upgrade s pid).1.proposals = s.proposals ∧
    (Reachable s →
      (∀ p ∈ s.proposals, p.approvals = [] ∧ p.approval_threshold = 3) ∧
      (∀ v, get_proposal_status s pid = Except.ok v →
        v.approvals = 0 ∧ v.threshold = 3)) := by
  refine ⟨rfl, fun h => ?_⟩
  obtain ⟨ht, hp, hm, hd⟩ := reachable_goodState h
  refine ⟨fun p hpm => ⟨(hp p hpm).1, (hp p hpm).2.1⟩, ?_⟩
  intro v hv
  unfold get_proposal_status at hv
  cases hfind : s.proposals.find? (fun q => q.id == pid) with
  | none =>
    rw [hfind] at hv
    simp at hv
  | some p =>
    rw [hfind] at hv
    dsimp only at hv
    injection hv with hv2
    have hp2 := hp p (List.mem_of_find?_eq_some hfind)
    constructor
    · rw [← hv2]
      show p.approvals.length = 0
      rw [hp2.1]
      rfl
    · rw [← hv2]
      exact hp2.2.1

/-- Witness for C6: the state after one propose call. -/
theorem approve_does_not_touch_proposal_store_witness :
    (approve_upgrade (run false [Op.propose 100 "buf" "desc"])
        (genId 0)).1.proposals =
      (run false [Op.propose 100 "buf" "desc"]).proposals ∧
    ((∀ p ∈ (run false [Op.propose 100 "buf" "desc"]).proposals,
        p.approvals = [] ∧ p.approval_threshold = 3) ∧
      (∀ v, get_proposal_status (run false [Op.propose 100 "buf" "desc"])
          (genId 0) = Except.ok v → v.approvals = 0 ∧ v.threshold = 3)) :=
  ⟨(approve_does_not_touch_proposal_store
      (run false [Op.propose 100 "buf" "desc"]) (genId 0)).1,
    (approve_does_not_touch_proposal_store
      (run false [Op.propose 100 "buf" "desc"]) (genId 0)).2
      ⟨false, [Op.propose 100 "buf" "desc"], rfl⟩⟩

/-- C2: once `cancel_upgrade` succeeds on a reachable state, after any
further request sequence both a subsequent approve call and a subsequent
execute call on that proposal id fail (the approve because the multisig
coordinator never holds that id, the execute with `AlreadyCancelled`). -/
theorem cancel_is_terminal (s : SystemState) (pid : String) (ops : List Op)
    (now : Int) (sq : Except UpgradeError String) (h : Reachable s)
    (hc : (cancel_upgrade s pid).2 = Except.ok ()) :
    (approve_upgrade (ops.foldl step (cancel_upgrade s pid).1) pid).2 =
        Except.error (UpgradeError.ProposalNotFound pid) ∧
      (execute_upgrade (ops.foldl step (cancel_upgrade s pid).1) pid now
          sq).2 = Except.error UpgradeError.AlreadyCancelled := by
  have hg : GoodState s := reachable_goodState h
  have hcan : CancelledAt (cancel_upgrade s pid).1 pid := by
    unfold cancel_upgrade at hc
    cases hfind : s.proposals.find? (fun q => q.id == pid) with
    | none =>
      rw [hfind] at hc
      simp at hc
    | some p =>
      rw [hfind] at hc
      dsimp only at hc
      by_cases h1 : p.status = ProposalStatus.Executed
      · rw [if_pos h1] at hc
        simp at hc
      · refine ⟨{ p with status := ProposalStatus.Cancelled }, ?_, rfl⟩
        unfold cancel_upgrade
        rw [hfind]
        dsimp only
        rw [if_neg h1]
        dsimp only
        rw [find?_updateFirst_self (fun q => q.id) pid
          (fun q => { q with status := ProposalStatus.Cancelled })
          (fun a => rfl) s.proposals]
        rw [hfind]
        rfl
  have hg1 : GoodState (cancel_upgrade s pid).1 := goodState_cancel s pid hg
  have hg2 : GoodState (ops.foldl step (cancel_upgrade s pid).1) :=
    goodState_foldl ops _ hg1
  have hc2 : CancelledAt (ops.foldl step (cancel_upgrade s pid).1) pid :=
    cancelledAt_foldl pid ops _ hg1 hcan
  obtain ⟨p2, hfind2, hstat2⟩ := hc2
  have hpmem := List.mem_of_find?_eq_some hfind2
  have hpid : p2.id = pid := by
    have := List.find?_some hfind2
    simpa using this
  constructor
  · have hnone : ((ops.foldl step
        (cancel_upgrade s pid).1).multisig.proposals).find?
        (fun m => m.id == pid) = none := by
      rw [List.find?_eq_none]
      intro m hmm hb
      have hne := hg2.2.2.2 p2 hpmem m hmm
      rw [hpid] at hne
      exact hne (beq_iff_eq.mp hb).symm
    show ((ops.foldl step
      (cancel_upgrade s pid).1).multisig.approve_proposal pid).2 =
        Except.error (UpgradeError.ProposalNotFound pid)
    unfold MultisigCoordinator.approve_proposal
    rw [hnone]
  · unfold execute_upgrade
    rw [hfind2]
    dsimp only
    rw [if_neg (show ¬ p2.status = ProposalStatus.Executed by
        rw [hstat2]; decide),
      if_pos hstat2]

/-- Witness for C2: propose, cancel, then approve and execute both fail. -/
theorem cancel_is_terminal_witness :
    (approve_upgrade (List.foldl step (cancel_upgrade
          (run false [Op.propose 100 "buf" "desc"]) (genId 0)).1 [])
        (genId 0)).2 =
        Except.error (UpgradeError.ProposalNotFound (genId 0)) ∧
      (execute_upgrade (List.foldl step (cancel_upgrade
            (run false [Op.propose 100 "buf" "desc"]) (genId 0)).1 [])
          (genId 0) 1000000 (Except.ok "")).2 =
        Except.error UpgradeError.AlreadyCancelled :=
  cancel_is_terminal (run false [Op.propose 100 "buf" "desc"]) (genId 0)
    [] 1000000 (Except.ok "")
    ⟨false, [Op.propose 100 "buf" "desc"], rfl⟩ rfl

theorem find?_recordOutcome (mid : String) (o : Except MigrationError Unit)
    (migs : List MigrationProgress) (m : MigrationProgress)
    (h : migs.find? (fun x => x.migration_id == mid) = some m) :
    ∃ m2, (recordOutcome mid o migs).find?
        (fun x => x.migration_id == mid) = some m2 ∧
      m2.migrated_accounts + m2.failed_accounts =
        m.migrated_accounts + m.failed_accounts + 1 ∧
      m2.total_accounts = m.total_accounts := by
  cases o with
  | ok u =>
    unfold recordOutcome
    rw [find?_updateFirst_self (fun x => x.migration_id) mid
      (fun m => { m with migrated_accounts := m.migrated_accounts + 1 })
      (fun a => rfl) migs]
    rw [h]
    refine ⟨_, rfl, ?_, rfl⟩
    show m.migrated_accounts + 1 + m.failed_accounts =
      m.migrated_accounts + m.failed_accounts + 1
    omega
  | error e =>
    unfold recordOutcome
    rw [find?_updateFirst_self (fun x => x.migration_id) mid
      (fun m => { m with failed_accounts := m.failed_accounts + 1 })
      (fun a => rfl) migs]
    rw [h]
    refine ⟨_, rfl, ?_, rfl⟩
    show m.migrated_accounts + (m.failed_accounts + 1) =
      m.migrated_accounts + m.failed_accounts + 1
    omega

theorem find?_processAccounts (mid : String)
    (migrators : List AccountMigrator) (accounts : List String) :
    ∀ migs m, migs.find? (fun x => x.migration_id == mid) = some m →
      ∃ m2, (processAccounts mid migrators accounts migs).find?
          (fun x => x.migration_id == mid) = some m2 ∧
        m2.migrated_accounts + m2.failed_accounts =
          m.migrated_accounts + m.failed_accounts + accounts.length ∧
        m2.total_accounts = m.total_accounts := by
  induction accounts with
  | nil =>
    intro migs m h
    refine ⟨m, h, ?_, rfl⟩
    show m.migrated_accounts + m.failed_accounts =
      m.migrated_accounts + m.failed_accounts + 0
    omega
  | cons a rest ih =>
    intro migs m h
    obtain ⟨m1, h1, hsum1, htot1⟩ := find?_recordOutcome mid
      (migrate_single_account migrators) migs m h
    obtain ⟨m2, h2, hsum2, htot2⟩ := ih _ _ h1
    refine ⟨m2, h2, ?_, ?_⟩
    · rw [hsum2, hsum1]
      show m.migrated_accounts + m.failed_accounts + 1 + rest.length =
        m.migrated_accounts + m.failed_accounts + (rest.length + 1)
      omega
    · rw [htot2, htot1]

/-- C8: starting a migration job and running the batch over any account
list with any registered migrators: every record bumps exactly one of
the two counters and never halts the loop, so the completed job
satisfies `migrated_accounts + failed_accounts = total_accounts`, with
the total fixed at the enumerated account count.  The freshness
hypothesis reflects the UUID drawn for the job id. -/
theorem migration_completed_counters (migs : List MigrationProgress)
    (fresh : String) (now : Int) (accounts : List String)
    (migrators : List AccountMigrator) (now2 : Int)
    (hfresh : ∀ m ∈ migs, m.migration_id ≠ fresh) :
    ∃ m, (migrate_accounts_batch fresh accounts
        (start_migration migs fresh now accounts).1 migrators
        now2).find? (fun x => x.migration_id == fresh) = some m ∧
      m.status = MigrationStatus.Completed ∧
      m.completed_at = some now2 ∧
      m.migrated_accounts + m.failed_accounts = m.total_accounts ∧
      m.total_accounts = accounts.length := by
  have hnone : migs.find? (fun x => x.migration_id == fresh) = none := by
    rw [List.find?_eq_none]
    intro m hm hb
    exact hfresh m hm (beq_iff_eq.mp hb)
  have hstart : (start_migration migs fresh now accounts).1.find?
      (fun x => x.migration_id == fresh) = some
      { migration_id := fresh
        total_accounts := accounts.length
        migrated_accounts := 0
        failed_accounts := 0
        status := MigrationStatus.InProgress
        started_at := now
        completed_at := none } := by
    show (migs ++ [_]).find? _ = _
    rw [find?_append_none _ hnone]
    simp
  obtain ⟨m2, h2, hsum2, htot2⟩ := find?_processAccounts fresh migrators
    accounts _ _ hstart
  have htot : m2.total_accounts = accounts.length := htot2
  have hsum : m2.migrated_accounts + m2.failed_accounts =
      0 + 0 + accounts.length := hsum2
  unfold migrate_accounts_batch
  rw [find?_updateFirst_self (fun x : MigrationProgress => x.migration_id)
    fresh
    (fun m => { m with status := MigrationStatus.Completed
                       completed_at := some now2 })
    (fun a => rfl)
    (processAccounts fresh migrators accounts
      (start_migration migs fresh now accounts).1)]
  rw [h2]
  refine ⟨_, rfl, rfl, rfl, ?_, ?_⟩
  · show m2.migrated_accounts + m2.failed_accounts = m2.total_accounts
    omega
  · show m2.total_accounts = accounts.length
    exact htot

/-- Witness for C8: a fresh job over two accounts with the v1-to-v2 user
account migrator. -/
theorem migration_completed_counters_witness :
    ∃ m, (migrate_accounts_batch "j" ["a", "b"]
        (start_migration [] "j" 5 ["a", "b"]).1
        [userAccountMigrator 0] 9).find?
        (fun x => x.migration_id == "j") = some m ∧
      m.status = MigrationStatus.Completed ∧
      m.completed_at = some 9 ∧
      m.migrated_accounts + m.failed_accounts = m.total_accounts ∧
      m.total_accounts = (["a", "b"] : List String).length :=
  migration_completed_counters [] "j" 5 ["a", "b"]
    [userAccountMigrator 0] 9 (by simp)

end GoQuant
